import Mathlib

/-!
Verification of the Arkivum storage-backend adapter
(`storage_service/locations/models/arkivum.py`).

The adapter is shallowly embedded: the vendor JSON payloads become typed
records over the fields the code reads, the network is an oracle giving the
response of each remote endpoint, side effects (HTTP calls, `package.save()`,
notification mail) are recorded in an explicit event log, and Python
exceptions become the `Except` error channel.  Each embedded function is a
direct transcription of the corresponding Python method.
-/

namespace Arkivum

/-- One entry of the `failures` list of a fixity status payload:
`{"reason": ..., "filepath": ...}` (see the docstring of
`check_package_fixity`). -/
structure Failure where
  reason : String
  filepath : String
  deriving DecidableEq

/-- The `fileInformation` sub-object of a compressed package's status
payload; the code reads `replicationState`, `local` and `id` from it. -/
structure FileInfo where
  replicationState : Option String := none
  «local» : Option Bool := none
  id : Option String := none
  deriving DecidableEq

/-- A parsed JSON object returned by the appliance, restricted to the fields
the adapter reads.  A field that is `none` is absent from the object.
(The appliance's payloads are JSON objects; a present `local` field carries a
boolean.) -/
structure Payload where
  fileInformation : Option FileInfo := none
  replicationState : Option String := none
  «local» : Option Bool := none
  status : Option String := none
  failures : Option (List Failure) := none
  fixityLastChecked : Option String := none
  id : Option String := none
  deriving DecidableEq

/-- Outcome of one HTTP request: `exn` models a raised
`requests` exception; `resp code body` models a response with the given
status code, whose body parses to `some` payload or fails to parse
(`none`). -/
inductive HttpResult where
  | exn : HttpResult
  | resp (code : Nat) (body : Option Payload) : HttpResult
  deriving DecidableEq

/-- Network oracle: the response each remote endpoint of the adapter would
deliver during the call under consideration. -/
structure Net where
  /-- response to the registration POST (`/api/2/files/release/<relpath>` or
  `/api/3/ingest-manifest/release`) -/
  regResp : HttpResult
  /-- response to the status GET (`/api/2/files/release/<id>` or
  `/api/3/ingest-manifest/status/<id>`) -/
  statusResp : HttpResult
  /-- response to the fallback GET on `.../bag-info.txt` -/
  baginfoResp : HttpResult
  /-- response to the per-file GET `/api/2/files/fileInfo/<path>` -/
  fileInfoResp : HttpResult
  deriving DecidableEq

/-- Observable side effects, in order of occurrence: remote calls issued,
`package.save()` persistence, and the non-local notification mail. -/
inductive Call where
  | regPost : Call
  | statusGet : Call
  | baginfoGet : Call
  | fileInfoGet : Call
  | save : Call
  | emailSend : Call
  deriving DecidableEq

/-- Python exceptions that can escape the embedded methods. -/
inductive PyExn where
  | storageException (msg : String) : PyExn
  | keyError (key : String) : PyExn
  | indexError : PyExn
  | valueError (msg : String) : PyExn
  | notImplementedError (msg : String) : PyExn
  | unboundLocalError (name : String) : PyExn
  deriving DecidableEq

/-- The slice of the host application's `Package` model that the adapter
reads and writes: the free-form attribute bag (`misc_attributes`), the
compressed flag, the lifecycle `status` string and the on-disk path. -/
structure Package where
  misc_attributes : List (String × String)
  is_compressed : Bool
  status : String
  full_path : String
  deriving DecidableEq

/-- Modelled from the spec: the host system's `Package.UPLOADED` lifecycle
status constant (`package.py` is outside the delivered sources; the spec
only names the constant). -/
def Package.UPLOADED : String := "UPLOADED"

/-- `"arkivum_identifier" in package.misc_attributes`. -/
def Package.hasRequestId (pkg : Package) : Bool :=
  pkg.misc_attributes.any (fun p => p.1 = "arkivum_identifier")

/-- `misc_attributes.update({key: value})`: overwrite the key in place or
append it. -/
def attrUpdate (bag : List (String × String)) (k v : String) :
    List (String × String) :=
  if bag.any (fun p => p.1 = k) then
    bag.map (fun p => if p.1 = k then (k, v) else p)
  else bag ++ [(k, v)]

/-- Result of `_get_package_info` / `_get_baginfo_txt_info`: either the
structured error dictionary `{"error": True, "error_message": msg}` or the
parsed response payload. -/
inductive InfoResult where
  | err (msg : String) : InfoResult
  | ok (payload : Payload) : InfoResult
  deriving DecidableEq

/-- `post_move_from_storage_service` (registration), lines 122-197: POST the
package metadata; a connection error, a status other than 200/202, or an
unparsable body raises `StorageException`; on success the response's `id`
(a `KeyError` if absent) is stored in `misc_attributes` and the package is
saved.  The PREMIS sidecar reading and payload construction have no effect
on the modelled state and are elided. -/
def post_move_from_storage_service (pkg : Package) (r : HttpResult) :
    Except PyExn Package × List Call :=
  match r with
  | HttpResult.exn =>
    (Except.error (PyExn.storageException "Error in connection for POST"),
     [Call.regPost])
  | HttpResult.resp code body =>
    if code = 200 ∨ code = 202 then
      match body with
      | none =>
        (Except.error (PyExn.storageException
          "Could not get request ID from Arkivum's response"), [Call.regPost])
      | some j =>
        match j.id with
        | none => (Except.error (PyExn.keyError "id"), [Call.regPost])
        | some rid =>
          (Except.ok { pkg with
              misc_attributes := attrUpdate pkg.misc_attributes
                "arkivum_identifier" rid },
           [Call.regPost, Call.save])
    else
      (Except.error (PyExn.storageException "Unable to notify Arkivum"),
       [Call.regPost])

/-- The shared `try requests.get / status-code check / response.json()`
interpretation used by `_get_package_info` and `_get_baginfo_txt_info`:
an exception, a non-200 code, or an unparsable body becomes the structured
error dictionary. -/
def interpretResponse (r : HttpResult) (exnMsg parseMsg : String) :
    InfoResult :=
  match r with
  | HttpResult.exn => InfoResult.err exnMsg
  | HttpResult.resp code body =>
    if code = 200 then
      match body with
      | none => InfoResult.err parseMsg
      | some j => InfoResult.ok j
    else
      InfoResult.err ("Response from Arkivum server was status " ++
        toString code)

/-- `_get_package_info`, lines 199-253: lazily re-register when no request
identifier is recorded (the local-path fetch is a collaborator call with no
modelled effect), then GET the status endpoint selected by the package
shape and interpret the response. -/
def get_package_info (pkg : Package) (net : Net) :
    Except PyExn (Package × InfoResult) × List Call :=
  if pkg.hasRequestId then
    (Except.ok (pkg, interpretResponse net.statusResp
      "Error fetching package status"
      "JSON could not be parsed from package info"),
     [Call.statusGet])
  else
    match post_move_from_storage_service pkg net.regResp with
    | (Except.error e, calls) => (Except.error e, calls)
    | (Except.ok pkg1, calls) =>
      if pkg1.hasRequestId then
        (Except.ok (pkg1, interpretResponse net.statusResp
          "Error fetching package status"
          "JSON could not be parsed from package info"),
         calls ++ [Call.statusGet])
      else
        (Except.ok (pkg1, InfoResult.err "Unable to contact Arkivum"), calls)

/-- `_get_baginfo_txt_info`, lines 255-296: the fallback GET on the bag's
`bag-info.txt` file-info endpoint. -/
def get_baginfo_txt_info (net : Net) : InfoResult × List Call :=
  (interpretResponse net.baginfoResp
    "Error fetching file info"
    "JSON could not be parsed from file info",
   [Call.baginfoGet])

/-- Python's `str.lower()` on the ASCII replication-state strings. -/
def pyLower (s : String) : String := String.mk (s.data.map Char.toLower)

/-- Lines 318-323: the tail of `update_package_status` once the replication
state string is in hand — on (case-insensitive) `"green"` set the status to
`UPLOADED` and save. -/
def replication_decision (pkg : Package) (replication : String)
    (calls : List Call) :
    Except PyExn ((Option String × String) × Package) × List Call :=
  if pyLower replication = "green" then
    (Except.ok ((some Package.UPLOADED,
        "Replication status: " ++ replication),
      { pkg with status := Package.UPLOADED }),
     calls ++ [Call.save])
  else
    (Except.ok ((some pkg.status, "Replication status: " ++ replication),
      pkg), calls)

/-- `update_package_status`, lines 298-323.  Returns the pair the Python
method returns (`(None, error_message)` on a fetch error, otherwise
`(package.status, "Replication status: " + replication)`) together with the
resulting package state and the event log. -/
def update_package_status (pkg : Package) (net : Net) :
    Except PyExn ((Option String × String) × Package) × List Call :=
  match get_package_info pkg net with
  | (Except.error e, calls) => (Except.error e, calls)
  | (Except.ok (pkg1, InfoResult.err m), calls) =>
    (Except.ok ((none, m), pkg1), calls)
  | (Except.ok (pkg1, InfoResult.ok j), calls) =>
    if pkg1.is_compressed then
      replication_decision pkg1
        ((j.fileInformation.bind FileInfo.replicationState).getD "") calls
    else
      match j.replicationState with
      | some replication => replication_decision pkg1 replication calls
      | none =>
        match get_baginfo_txt_info net with
        | (InfoResult.err m, calls2) =>
          (Except.ok ((none, m), pkg1), calls ++ calls2)
        | (InfoResult.ok j2, calls2) =>
          replication_decision pkg1 (j2.replicationState.getD "")
            (calls ++ calls2)

/-! ### Timestamp normalization

`check_package_fixity` runs `dateutil.parser.parse(timestamp).isoformat()`
on a truthy `fixityLastChecked`.  `dateutil` is a library outside the
delivered sources, so the parsing step is modelled from the spec. -/

/-- A wall-clock datetime as parsed from the appliance (UTC). -/
structure DateTime where
  year : Nat
  month : Nat
  day : Nat
  hour : Nat
  minute : Nat
  second : Nat
  deriving DecidableEq

/-- Read one decimal digit character. -/
def digitVal (c : Char) : Option Nat :=
  if 48 ≤ c.toNat ∧ c.toNat ≤ 57 then some (c.toNat - 48) else none

/-- Consume exactly two decimal digits. -/
def parse2 : List Char → Option (Nat × List Char)
  | c1 :: c2 :: rest =>
    (digitVal c1).bind fun a =>
    (digitVal c2).bind fun b =>
    some (10 * a + b, rest)
  | _ => none

/-- Consume exactly four decimal digits. -/
def parse4 (l : List Char) : Option (Nat × List Char) :=
  match parse2 l with
  | none => none
  | some (a, l1) =>
    match parse2 l1 with
    | none => none
    | some (b, l2) => some (100 * a + b, l2)

/-- Consume one expected literal character. -/
def expectChar (c : Char) : List Char → Option (List Char)
  | x :: rest => if x = c then some rest else none
  | [] => none

/-- Consume a `YYYY-MM-DDThh:mm:ss` prefix, checking the calendar field
ranges. -/
def parseYmdHms (l : List Char) : Option (DateTime × List Char) :=
  (parse4 l).bind fun (y, l) =>
  (expectChar '-' l).bind fun l =>
  (parse2 l).bind fun (mo, l) =>
  (expectChar '-' l).bind fun l =>
  (parse2 l).bind fun (d, l) =>
  (expectChar 'T' l).bind fun l =>
  (parse2 l).bind fun (h, l) =>
  (expectChar ':' l).bind fun l =>
  (parse2 l).bind fun (mi, l) =>
  (expectChar ':' l).bind fun l =>
  (parse2 l).bind fun (s, l) =>
  if 1 ≤ mo ∧ mo ≤ 12 ∧ 1 ≤ d ∧ d ≤ 31 ∧ h ≤ 23 ∧ mi ≤ 59 ∧ s ≤ 59 then
    some (⟨y, mo, d, h, mi, s⟩, l)
  else none

/-- Modelled from the spec: `dateutil.parser.parse` restricted to the
appliance's date format — a UTC timestamp `YYYY-MM-DDThh:mm:ssZ`
("Timestamp ... is parsed from the appliance's date format"). -/
def applianceDateParse (s : String) : Option DateTime :=
  match parseYmdHms s.data with
  | some (dt, rest) => if rest = ['Z'] then some dt else none
  | none => none

def digitChar (n : Nat) : Char := Char.ofNat (48 + n)

def pad2 (n : Nat) : List Char := [digitChar (n / 10), digitChar (n % 10)]

def pad4 (n : Nat) : List Char := pad2 (n / 100) ++ pad2 (n % 100)

/-- Modelled from the spec: Python's `datetime.isoformat()` on the parsed
UTC datetime — `YYYY-MM-DDThh:mm:ss+00:00`. -/
def DateTime.isoformat (dt : DateTime) : String :=
  String.mk (pad4 dt.year ++ '-' :: (pad2 dt.month ++ '-' :: (pad2 dt.day ++
    'T' :: (pad2 dt.hour ++ ':' :: (pad2 dt.minute ++ ':' :: (pad2 dt.second
      ++ ['+', '0', '0', ':', '0', '0']))))))

/-- Parser for the normalized ISO-8601 form emitted by `isoformat`
(a string is "a valid ISO-8601 string" when this parser accepts it). -/
def isoParse (s : String) : Option DateTime :=
  match parseYmdHms s.data with
  | some (dt, rest) =>
    if rest = ['+', '0', '0', ':', '0', '0'] then some dt else none
  | none => none

def isLeap (y : Nat) : Bool := (y % 4 = 0 ∧ y % 100 ≠ 0) ∨ y % 400 = 0

def daysBeforeMonth (m : Nat) : Nat :=
  [0, 0, 31, 59, 90, 120, 151, 181, 212, 243, 273, 304, 334].getD m 0

/-- The instant a UTC datetime denotes, as seconds from the proleptic
Gregorian epoch 0001-01-01T00:00:00Z. -/
def DateTime.instant (dt : DateTime) : Nat :=
  let days := (dt.year - 1) * 365 + (dt.year - 1) / 4 - (dt.year - 1) / 100 +
    (dt.year - 1) / 400 + daysBeforeMonth dt.month +
    (if isLeap dt.year ∧ 2 < dt.month then 1 else 0) + (dt.day - 1)
  (days * 24 + dt.hour) * 3600 + dt.minute * 60 + dt.second

/-- Lines 457-459 of `check_package_fixity`: a missing or falsy (empty)
timestamp is passed through; otherwise it is parsed and re-emitted in ISO
form, an unparsable value raising `ValueError`. -/
def normalizeTimestamp (t : Option String) : Except PyExn (Option String) :=
  match t with
  | none => Except.ok none
  | some s =>
    if s = "" then Except.ok (some s)
    else
      match applianceDateParse s with
      | none => Except.error (PyExn.valueError "Unknown string format")
      | some dt => Except.ok (some dt.isoformat)

/-- `check_package_fixity`, lines 421-461: refuse compressed packages, fetch
the status payload, and map it to `(success, errors, message, timestamp)`.
An absent `status` key raises `KeyError`; an empty `failures` list in the
final branch raises `IndexError` at `errors[0]`. -/
def check_package_fixity (pkg : Package) (net : Net) :
    Except PyExn (Option Bool × List Failure × String × Option String) ×
      List Call :=
  if pkg.is_compressed then
    (Except.error (PyExn.notImplementedError
      "Arkivum does not implement fixity for compressed packages"), [])
  else
    match get_package_info pkg net with
    | (Except.error e, calls) => (Except.error e, calls)
    | (Except.ok (_, InfoResult.err m), calls) =>
      (Except.ok (some false, [], m, none), calls)
    | (Except.ok (_, InfoResult.ok j), calls) =>
      let errors := j.failures.getD []
      let replication := j.replicationState
      match j.status with
      | none => (Except.error (PyExn.keyError "status"), calls)
      | some st =>
        let core : Except PyExn (Option Bool × String) :=
          if st = "Completed" ∧ replication = some "green" then
            Except.ok (some true, "")
          else if st = "Scheduled" ∨ replication = some "amber" then
            Except.ok (none, "Arkivum fixity check in progress")
          else if 1 < errors.length then
            Except.ok (some false, "invalid bag")
          else
            match errors with
            | [] => Except.error PyExn.indexError
            | e :: _ => Except.ok (some false, e.reason)
        match core with
        | Except.error e => (Except.error e, calls)
        | Except.ok (success, message) =>
          match normalizeTimestamp j.fixityLastChecked with
          | Except.error e => (Except.error e, calls)
          | Except.ok ts => (Except.ok (success, errors, message, ts), calls)

/-! ### Locality check -/

/-- One directory visited by `scandir.walk(package.full_path)`, in walk
order: its path and the regular files directly inside it. -/
structure FsDir where
  dirpath : String
  files : List String
  deriving DecidableEq

/-- `os.path.join` for the walk-produced relative file names. -/
def pathJoin (a b : String) : String :=
  if a.endsWith "/" then a ++ b else a ++ "/" ++ b

/-- `os.path.relpath(p, base)` for paths below `base` (the only shape the
walk produces). -/
def relPath (p base : String) : String :=
  if p = base then "." else p.stripPrefix (base ++ "/")

/-- Lines 388-392: scan the walk output for the first directory holding a
file; `none` when the tree has no regular file, in which case `file_path`
is never assigned. -/
def firstFileRel (fs : List FsDir) (fullPath : String) : Option String :=
  match fs.find? (fun d => !d.files.isEmpty) with
  | none => none
  | some d => some (relPath (pathJoin d.dirpath (d.files.headD "")) fullPath)

/-- Python truthiness of the optional `path` argument (`if path:`). -/
def pyTruthyStr : Option String → Bool
  | none => false
  | some s => s ≠ ""

/-- Lines 394-419, the common tail of `is_file_local`: a truthy `local`
field returns `True`; otherwise superusers are mailed when requested and
`False` is returned. -/
def localityTail (localVal : Option Bool) (email : Bool) :
    Except PyExn (Option Bool) × List Call :=
  if localVal.getD false then (Except.ok (some true), [])
  else (Except.ok (some false), if email then [Call.emailSend] else [])

/-- Lines 347-375 of `is_file_local`: the direct per-file `fileInfo` GET
issued for an uncompressed package with a truthy sub-path, returning `None`
on a connection error, a non-200 response, or an unparsable body. -/
def file_info_lookup (net : Net) (email : Bool) :
    Except PyExn (Option Bool) × List Call :=
  match net.fileInfoResp with
  | HttpResult.exn => (Except.ok none, [Call.fileInfoGet])
  | HttpResult.resp code body =>
    if code = 200 then
      match body with
      | none => (Except.ok none, [Call.fileInfoGet])
      | some j =>
        ((localityTail j.«local» email).1,
         Call.fileInfoGet :: (localityTail j.«local» email).2)
    else (Except.ok none, [Call.fileInfoGet])

/-- `is_file_local`, lines 325-419.  The walk-fallback branch recurses into
the truthy-sub-path case (`file_info_lookup`); walk-produced relative paths
are nonempty, so the recursive call always takes that branch. -/
def is_file_local (pkg : Package) (path : Option String) (email : Bool)
    (net : Net) (fs : List FsDir) :
    Except PyExn (Option Bool) × List Call :=
  if pkg.is_compressed then
    match get_package_info pkg net with
    | (Except.error e, calls) => (Except.error e, calls)
    | (Except.ok (_, InfoResult.err _), calls) => (Except.ok none, calls)
    | (Except.ok (_, InfoResult.ok j), calls) =>
      match j.fileInformation with
      | none => (Except.error (PyExn.keyError "fileInformation"), calls)
      | some fi =>
        ((localityTail fi.«local» email).1,
         calls ++ (localityTail fi.«local» email).2)
  else if pyTruthyStr path then
    file_info_lookup net email
  else
    match get_package_info pkg net with
    | (Except.error e, calls) => (Except.error e, calls)
    | (Except.ok (_, InfoResult.err _), calls) => (Except.ok none, calls)
    | (Except.ok (_, InfoResult.ok j), calls) =>
      match j.«local» with
      | some lv =>
        ((localityTail (some lv) email).1,
         calls ++ (localityTail (some lv) email).2)
      | none =>
        match firstFileRel fs pkg.full_path with
        | none =>
          (Except.error (PyExn.unboundLocalError "file_path"), calls)
        | some _ =>
          ((file_info_lookup net email).1,
           calls ++ (file_info_lookup net email).2)

/-! ### Helper lemmas -/

theorem string_append_left_cancel {a b c : String} (h : a ++ b = a ++ c) :
    b = c := by
  have hd : (a ++ b).data = (a ++ c).data := by rw [h]
  simp only [String.data_append] at hd
  exact String.ext (List.append_cancel_left hd)

/-- Registration only touches `misc_attributes`. -/
theorem post_move_preserves (pkg : Package) (r : HttpResult) (pkg1 : Package)
    (calls : List Call)
    (h : post_move_from_storage_service pkg r = (Except.ok pkg1, calls)) :
    pkg1.status = pkg.status ∧ pkg1.is_compressed = pkg.is_compressed ∧
      pkg1.full_path = pkg.full_path := by
  unfold post_move_from_storage_service at h
  repeat' split at h
  all_goals simp_all
  all_goals (rw [← h.1]; exact ⟨rfl, rfl, rfl⟩)

/-- The registration event log is `[regPost]` or `[regPost, save]`. -/
theorem post_move_calls (pkg : Package) (r : HttpResult) :
    (post_move_from_storage_service pkg r).2 = [Call.regPost] ∨
    (post_move_from_storage_service pkg r).2 = [Call.regPost, Call.save] := by
  unfold post_move_from_storage_service
  repeat' split
  all_goals simp

/-- `_get_package_info` only touches `misc_attributes`. -/
theorem get_package_info_preserves (pkg : Package) (net : Net)
    (pkg1 : Package) (r : InfoResult) (calls : List Call)
    (h : get_package_info pkg net = (Except.ok (pkg1, r), calls)) :
    pkg1.status = pkg.status ∧ pkg1.is_compressed = pkg.is_compressed ∧
      pkg1.full_path = pkg.full_path := by
  unfold get_package_info at h
  split at h
  · simp only [Prod.mk.injEq, Except.ok.injEq] at h
    obtain ⟨⟨h1, h2⟩, h3⟩ := h
    subst h1
    exact ⟨rfl, rfl, rfl⟩
  · split at h
    next e calls0 heq => exact absurd h (by simp)
    next pkg2 calls0 heq =>
      have hpres := post_move_preserves pkg net.regResp pkg2 calls0 heq
      split at h <;>
        · simp only [Prod.mk.injEq, Except.ok.injEq] at h
          obtain ⟨⟨h1, h2⟩, h3⟩ := h
          subst h1
          exact hpres

/-- With a recorded request identifier, `_get_package_info` skips
registration entirely and issues exactly the status GET. -/
theorem get_package_info_hasId (pkg : Package) (net : Net)
    (hid : pkg.hasRequestId = true) :
    get_package_info pkg net =
      (Except.ok (pkg, interpretResponse net.statusResp
        "Error fetching package status"
        "JSON could not be parsed from package info"),
       [Call.statusGet]) := by
  unfold get_package_info
  simp [hid]

/-- The fallback endpoint is never contacted from within
`_get_package_info`. -/
theorem get_package_info_no_baginfo (pkg : Package) (net : Net) :
    Call.baginfoGet ∉ (get_package_info pkg net).2 := by
  unfold get_package_info
  split
  · simp
  · split
    next e calls0 heq =>
      have := post_move_calls pkg net.regResp
      rw [heq] at this
      rcases this with h' | h' <;> simp_all
    next pkg2 calls0 heq =>
      have := post_move_calls pkg net.regResp
      rw [heq] at this
      split <;> rcases this with h' | h' <;> simp_all

/-- Unfolding of the replication decision tail. -/
theorem replication_decision_spec (pkg : Package) (R : String)
    (calls : List Call) (res : Option String × String) (pkg' : Package)
    (calls' : List Call)
    (h : replication_decision pkg R calls = (Except.ok (res, pkg'), calls')) :
    res.2 = "Replication status: " ++ R ∧ res.1 ≠ none ∧
    (pyLower R = "green" →
      pkg'.status = Package.UPLOADED ∧ res.1 = some Package.UPLOADED ∧
        Call.save ∈ calls') ∧
    (pyLower R ≠ "green" → pkg' = pkg ∧ res.1 = some pkg.status) := by
  unfold replication_decision at h
  by_cases hg : pyLower R = "green"
  · simp only [if_pos hg, Prod.mk.injEq, Except.ok.injEq] at h
    obtain ⟨⟨hres, hpkg⟩, hcalls⟩ := h
    subst hres hpkg hcalls
    refine ⟨rfl, by simp, fun _ => ⟨rfl, rfl, by simp⟩, fun hn => absurd hg hn⟩
  · simp only [if_neg hg, Prod.mk.injEq, Except.ok.injEq] at h
    obtain ⟨⟨hres, hpkg⟩, hcalls⟩ := h
    subst hres hpkg hcalls
    exact ⟨rfl, by simp, fun hgr => absurd hgr hg, fun _ => ⟨rfl, rfl⟩⟩

/-- `replication_decision_spec` combined with status preservation of the
preceding fetch. -/
theorem update_tail_spec (pkg0 pkg1 : Package) (R : String)
    (calls0 calls : List Call) (res : Option String × String)
    (pkg' : Package) (hst : pkg1.status = pkg0.status)
    (h : replication_decision pkg1 R calls0 = (Except.ok (res, pkg'), calls)) :
    (pkg0.status = Package.UPLOADED → pkg'.status = Package.UPLOADED) ∧
    (res.1 = none → pkg'.status = pkg0.status) ∧
    (∀ r, res.1 ≠ none → res.2 = "Replication status: " ++ r →
      (pyLower r = "green" →
        pkg'.status = Package.UPLOADED ∧ res.1 = some Package.UPLOADED ∧
          Call.save ∈ calls) ∧
      (pyLower r ≠ "green" →
        pkg'.status = pkg0.status ∧ res.1 = some pkg0.status)) := by
  obtain ⟨hmsg, hne, hgreen, hnot⟩ :=
    replication_decision_spec pkg1 R calls0 res pkg' calls h
  refine ⟨?_, fun h0 => absurd h0 hne, ?_⟩
  · intro hup
    by_cases hg : pyLower R = "green"
    · exact (hgreen hg).1
    · rw [(hnot hg).1, hst]
      exact hup
  · intro r hne' hmsg'
    have hRr : R = r := by
      apply string_append_left_cancel (a := "Replication status: ")
      rw [← hmsg, hmsg']
    subst hRr
    refine ⟨fun hg => (hgreen hg), fun hg => ?_⟩
    obtain ⟨hp, hres⟩ := hnot hg
    constructor
    · rw [hp]
      exact hst
    · rw [hres, hst]

/-- C1: a replication state equal to `"green"` case-insensitively advances
the package status to `UPLOADED` and persists it; any other replication
state leaves the status unchanged; a status already `UPLOADED` is never
reverted. -/
theorem update_package_status_green_rule (pkg : Package) (net : Net)
    (res : Option String × String) (pkg' : Package) (calls : List Call)
    (h : update_package_status pkg net = (Except.ok (res, pkg'), calls)) :
    (pkg.status = Package.UPLOADED → pkg'.status = Package.UPLOADED) ∧
    (res.1 = none → pkg'.status = pkg.status) ∧
    (∀ r, res.1 ≠ none → res.2 = "Replication status: " ++ r →
      (pyLower r = "green" →
        pkg'.status = Package.UPLOADED ∧ res.1 = some Package.UPLOADED ∧
          Call.save ∈ calls) ∧
      (pyLower r ≠ "green" →
        pkg'.status = pkg.status ∧ res.1 = some pkg.status)) := by
  unfold update_package_status at h
  split at h
  next e calls0 heq => exact absurd h (by simp)
  next pkg1 m calls0 heq =>
    have hpres :=
      (get_package_info_preserves pkg net pkg1 (InfoResult.err m) calls0 heq).1
    simp only [Prod.mk.injEq, Except.ok.injEq] at h
    obtain ⟨⟨h1, h2⟩, h3⟩ := h
    subst h2
    refine ⟨fun hu => by rw [hpres, hu], fun _ => hpres, fun r hne hmsg => ?_⟩
    rw [← h1] at hne
    simp at hne
  next pkg1 j calls0 heq =>
    have hpres :=
      (get_package_info_preserves pkg net pkg1 (InfoResult.ok j) calls0 heq).1
    split at h
    · exact update_tail_spec pkg pkg1 _ calls0 calls res pkg' hpres h
    · split at h
      next R hR => exact update_tail_spec pkg pkg1 R calls0 calls res pkg' hpres h
      next hR =>
        split at h
        next m calls2 heq2 =>
          simp only [Prod.mk.injEq, Except.ok.injEq] at h
          obtain ⟨⟨h1, h2⟩, h3⟩ := h
          subst h2
          refine ⟨fun hu => by rw [hpres, hu], fun _ => hpres,
            fun r hne hmsg => ?_⟩
          rw [← h1] at hne
          simp at hne
        next j2 calls2 heq2 =>
          exact update_tail_spec pkg pkg1 _ _ calls res pkg' hpres h

/-! ### Concrete fixtures for witnesses and counterexamples -/

/-- An uncompressed package with a recorded request identifier. -/
def pkgStaged : Package :=
  ⟨[("arkivum_identifier", "rid-1")], false, "STAGING", "/aips/p1"⟩

/-- `pkgStaged` after the green decision fired. -/
def pkgDone : Package :=
  ⟨[("arkivum_identifier", "rid-1")], false, Package.UPLOADED, "/aips/p1"⟩

/-- Status endpoint reports `replicationState: "green"`. -/
def netGreen : Net :=
  ⟨HttpResult.exn, HttpResult.resp 200 (some { replicationState := some "green" }),
   HttpResult.exn, HttpResult.exn⟩

/-- Witness for C1: the green response advances `pkgStaged` to `UPLOADED`
with a `save`. -/
theorem update_package_status_green_rule_witness :
    pkgDone.status = Package.UPLOADED ∧
    (some Package.UPLOADED, "Replication status: green").1 =
      some Package.UPLOADED ∧
    Call.save ∈ [Call.statusGet, Call.save] :=
  ((update_package_status_green_rule pkgStaged netGreen
      (some Package.UPLOADED, "Replication status: green") pkgDone
      [Call.statusGet, Call.save] rfl).2.2 "green"
    (by simp) rfl).1 rfl

/-- A request attempt that fails at the transport layer: the library raised,
the response code is not 200, or the body is unparsable. -/
def HttpResult.failed : HttpResult → Bool
  | HttpResult.exn => true
  | HttpResult.resp code body => code ≠ 200 || body.isNone

/-- A failed per-file `fileInfo` request makes the lookup return the `None`
marker. -/
theorem file_info_lookup_failed (net : Net) (email : Bool)
    (h : HttpResult.failed net.fileInfoResp = true) :
    (file_info_lookup net email).1 = Except.ok none := by
  unfold file_info_lookup
  unfold HttpResult.failed at h
  split
  · rfl
  next code body heq =>
    rw [heq] at h
    simp only [Bool.or_eq_true, decide_eq_true_eq, Option.isNone_iff_eq_none] at h
    rcases h with h | h
    · simp [h]
    · subst h
      split <;> simp

/-- C5: `check_package_fixity` on a compressed package raises
`NotImplementedError` before any remote call. -/
theorem check_package_fixity_compressed (pkg : Package) (net : Net)
    (h : pkg.is_compressed = true) :
    check_package_fixity pkg net =
      (Except.error (PyExn.notImplementedError
        "Arkivum does not implement fixity for compressed packages"), []) := by
  unfold check_package_fixity
  simp [h]

/-- A compressed package with a recorded request identifier. -/
def pkgCompressed : Package :=
  ⟨[("arkivum_identifier", "rid-1")], true, "STAGING", "/aips/p1.7z"⟩

/-- Witness for C5. -/
theorem check_package_fixity_compressed_witness :
    check_package_fixity pkgCompressed netGreen =
      (Except.error (PyExn.notImplementedError
        "Arkivum does not implement fixity for compressed packages"), []) :=
  check_package_fixity_compressed pkgCompressed netGreen rfl

/-- C10: for an uncompressed package with no sub-path, a payload with no
error and no `local` field, and a directory tree with no regular file, the
walk fallback raises `UnboundLocalError` (the chosen `file_path` is never
assigned) instead of returning the `None` marker or a boolean. -/
theorem is_file_local_walk_unbound (pkg : Package) (path : Option String)
    (email : Bool) (net : Net) (fs : List FsDir)
    (hC : pkg.is_compressed = false) (hP : pyTruthyStr path = false)
    (pkg1 : Package) (j : Payload) (calls : List Call)
    (hInfo : get_package_info pkg net =
      (Except.ok (pkg1, InfoResult.ok j), calls))
    (hLocal : j.«local» = none)
    (hFs : ∀ d ∈ fs, d.files = []) :
    is_file_local pkg path email net fs =
      (Except.error (PyExn.unboundLocalError "file_path"), calls) := by
  have hFind : fs.find? (fun d => !d.files.isEmpty) = none := by
    rw [List.find?_eq_none]
    intro d hd
    simp [hFs d hd]
  unfold is_file_local
  rw [hInfo]
  simp [hC, hP, hLocal, firstFileRel, hFind]

/-- Witness for C10. -/
theorem is_file_local_walk_unbound_witness :
    is_file_local pkgStaged none false netGreen [⟨"/aips/p1", []⟩] =
      (Except.error (PyExn.unboundLocalError "file_path"),
       [Call.statusGet]) :=
  is_file_local_walk_unbound pkgStaged none false netGreen [⟨"/aips/p1", []⟩]
    rfl rfl pkgStaged { replicationState := some "green" } [Call.statusGet]
    rfl rfl (by decide)

/-- C7: when the remote call that decides locality fails at the transport
layer (connection exception, non-200 status, or unparsable JSON),
`is_file_local` returns the error marker `None`, never the boolean
`False`.  The first conjunct covers the two branches that consult the
package-status payload, the second the direct per-file lookup. -/
theorem is_file_local_error_marker (pkg : Package) (net : Net)
    (path : Option String) (email : Bool) (fs : List FsDir) :
    ((pkg.is_compressed = true ∨ pyTruthyStr path = false) →
      ∀ pkg1 m calls, get_package_info pkg net =
          (Except.ok (pkg1, InfoResult.err m), calls) →
        (is_file_local pkg path email net fs).1 = Except.ok none) ∧
    (pkg.is_compressed = false → pyTruthyStr path = true →
      HttpResult.failed net.fileInfoResp = true →
      (is_file_local pkg path email net fs).1 = Except.ok none) := by
  constructor
  · intro hcase pkg1 m calls hInfo
    unfold is_file_local
    rw [hInfo]
    rcases hc : pkg.is_compressed with _ | _
    · rcases hcase with hcase | hcase
      · rw [hc] at hcase; cases hcase
      · simp [hcase]
    · simp
  · intro hc hp hfail
    unfold is_file_local
    rw [hc, hp]
    simpa using file_info_lookup_failed net email hfail

/-- All four endpoints fail with a connection exception. -/
def netAllExn : Net :=
  ⟨HttpResult.exn, HttpResult.exn, HttpResult.exn, HttpResult.exn⟩

/-- Witness for C7: a connection exception on the per-file lookup. -/
theorem is_file_local_error_marker_witness :
    (is_file_local pkgStaged (some "data/objects.txt") true netAllExn []).1 =
      Except.ok none :=
  (is_file_local_error_marker pkgStaged netAllExn (some "data/objects.txt")
    true []).2 rfl rfl rfl

/-- The locality tail emits at most the notification mail. -/
theorem localityTail_calls (lv : Option Bool) (email : Bool) :
    (localityTail lv email).2 = [] ∨
    (localityTail lv email).2 = [Call.emailSend] := by
  unfold localityTail
  split
  · simp
  · split <;> simp


/-- The per-file lookup emits the GET and at most the notification mail. -/
theorem file_info_lookup_calls (net : Net) (email : Bool) :
    (file_info_lookup net email).2 = [Call.fileInfoGet] ∨
    (file_info_lookup net email).2 = [Call.fileInfoGet, Call.emailSend] := by
  rcases hr : net.fileInfoResp with _ | ⟨code, body⟩ <;>
    unfold file_info_lookup <;> rw [hr] <;> dsimp only
  · simp
  · rcases body with _ | j
    · dsimp only
      split <;> simp
    · dsimp only
      split
      · rcases localityTail_calls j.«local» email with h | h <;>
          rw [h] <;> simp
      · simp

/-- The green decision appends at most a `save` to the event log. -/
theorem replication_decision_calls (pkg : Package) (R : String)
    (calls : List Call) :
    (replication_decision pkg R calls).2 = calls ∨
    (replication_decision pkg R calls).2 = calls ++ [Call.save] := by
  unfold replication_decision
  split <;> simp

/-- The green decision never touches `misc_attributes`. -/
theorem replication_decision_misc (pkg : Package) (R : String)
    (calls : List Call) (res : Option String × String) (pkg' : Package)
    (calls' : List Call)
    (h : replication_decision pkg R calls = (Except.ok (res, pkg'), calls')) :
    pkg'.misc_attributes = pkg.misc_attributes := by
  unfold replication_decision at h
  split at h <;>
    · simp only [Prod.mk.injEq, Except.ok.injEq] at h
      rw [← h.1.2]

/-- `update_package_status` extends the fetch log with at most the fallback
GET and a save. -/
theorem update_package_status_calls (pkg : Package) (net : Net) :
    ∃ extra : List Call,
      (update_package_status pkg net).2 =
        (get_package_info pkg net).2 ++ extra ∧
      extra ⊆ [Call.baginfoGet, Call.save] := by
  unfold update_package_status
  rcases hgp : get_package_info pkg net with ⟨er, calls0⟩
  rcases er with e | ⟨pkg1, ir⟩ <;> dsimp only
  · exact ⟨[], by simp⟩
  · rcases ir with m | j <;> dsimp only
    · exact ⟨[], by simp⟩
    · split
      · rcases replication_decision_calls pkg1
          ((j.fileInformation.bind FileInfo.replicationState).getD "")
          calls0 with h | h <;> rw [h]
        · exact ⟨[], by simp⟩
        · exact ⟨[Call.save], by simp⟩
      · rcases hjr : j.replicationState with _ | R <;> dsimp only
        · unfold get_baginfo_txt_info
          rcases hb : interpretResponse net.baginfoResp
              "Error fetching file info"
              "JSON could not be parsed from file info" with m2 | j2 <;>
            dsimp only
          · exact ⟨[Call.baginfoGet], by simp⟩
          · rcases replication_decision_calls pkg1
              (j2.replicationState.getD "")
              (calls0 ++ [Call.baginfoGet]) with h | h <;> rw [h]
            · exact ⟨[Call.baginfoGet], by simp⟩
            · exact ⟨[Call.baginfoGet] ++ [Call.save], by simp⟩
        · rcases replication_decision_calls pkg1 R calls0 with h | h <;>
            rw [h]
          · exact ⟨[], by simp⟩
          · exact ⟨[Call.save], by simp⟩

/-- `is_file_local` either performs the per-file lookup only, or extends the
fetch log with at most a per-file lookup and a mail. -/
theorem is_file_local_calls (pkg : Package) (path : Option String)
    (email : Bool) (net : Net) (fs : List FsDir) :
    ∃ extra : List Call,
      ((is_file_local pkg path email net fs).2 =
          (get_package_info pkg net).2 ++ extra ∨
        (is_file_local pkg path email net fs).2 = extra) ∧
      extra ⊆ [Call.fileInfoGet, Call.emailSend] := by
  unfold is_file_local
  rcases hgp : get_package_info pkg net with ⟨er, calls0⟩
  split
  · rcases er with e | ⟨pkg1, ir⟩ <;> dsimp only
    · exact ⟨[], by simp⟩
    · rcases ir with m | j <;> dsimp only
      · exact ⟨[], by simp⟩
      · rcases hfi : j.fileInformation with _ | fi <;> dsimp only
        · exact ⟨[], by simp⟩
        · rcases localityTail_calls fi.«local» email with h | h <;> rw [h]
          · exact ⟨[], by simp⟩
          · exact ⟨[Call.emailSend], by simp⟩
  · split
    · rcases file_info_lookup_calls net email with h | h <;> rw [h]
      · exact ⟨[Call.fileInfoGet], by simp⟩
      · exact ⟨[Call.fileInfoGet, Call.emailSend], by simp⟩
    · rcases er with e | ⟨pkg1, ir⟩ <;> dsimp only
      · exact ⟨[], by simp⟩
      · rcases ir with m | j <;> dsimp only
        · exact ⟨[], by simp⟩
        · rcases hl : j.«local» with _ | lv <;> dsimp only
          · rcases hff : firstFileRel fs pkg.full_path with _ | fp <;>
              dsimp only
            · exact ⟨[], by simp⟩
            · rcases file_info_lookup_calls net email with h | h <;> rw [h]
              · exact ⟨[Call.fileInfoGet], by simp⟩
              · exact ⟨[Call.fileInfoGet, Call.emailSend], by simp⟩
          · rcases localityTail_calls (some lv) email with h | h <;> rw [h]
            · exact ⟨[], by simp⟩
            · exact ⟨[Call.emailSend], by simp⟩

/-- `check_package_fixity` issues no remote call beyond the fetch. -/
theorem check_package_fixity_calls (pkg : Package) (net : Net) :
    (check_package_fixity pkg net).2 = [] ∨
    (check_package_fixity pkg net).2 = (get_package_info pkg net).2 := by
  unfold check_package_fixity
  rcases hgp : get_package_info pkg net with ⟨er, calls0⟩
  split
  · simp
  · dsimp only
    rcases er with e | ⟨pkg1, ir⟩
    · simp
    · rcases ir with m | j
      · simp
      · dsimp only
        repeat' split
        all_goals simp

/-- C6: for a package that already carries a request identifier, no
status-retrieval operation re-invokes registration, and the stored
identifier — indeed the whole attribute bag — is never overwritten or
regenerated. -/
theorem no_reregistration (pkg : Package) (net : Net) (path : Option String)
    (email : Bool) (fs : List FsDir) (hid : pkg.hasRequestId = true) :
    Call.regPost ∉ (get_package_info pkg net).2 ∧
    (∀ pkg1 r calls, get_package_info pkg net =
        (Except.ok (pkg1, r), calls) →
      pkg1.misc_attributes = pkg.misc_attributes) ∧
    Call.regPost ∉ (update_package_status pkg net).2 ∧
    (∀ res pkg' calls, update_package_status pkg net =
        (Except.ok (res, pkg'), calls) →
      pkg'.misc_attributes = pkg.misc_attributes) ∧
    Call.regPost ∉ (is_file_local pkg path email net fs).2 ∧
    Call.regPost ∉ (check_package_fixity pkg net).2 := by
  have hg := get_package_info_hasId pkg net hid
  have hgc : (get_package_info pkg net).2 = [Call.statusGet] := by rw [hg]
  refine ⟨?_, ?_, ?_, ?_, ?_, ?_⟩
  · rw [hgc]
    simp
  · intro pkg1 r calls h
    rw [hg] at h
    simp only [Prod.mk.injEq, Except.ok.injEq] at h
    rw [← h.1.1]
  · obtain ⟨extra, heq, hsub⟩ := update_package_status_calls pkg net
    rw [heq, hgc]
    intro hmem
    rcases List.mem_append.1 hmem with h | h
    · simp at h
    · have := hsub h
      simp at this
  · intro res pkg' calls h
    unfold update_package_status at h
    rw [hg] at h
    rcases hir : interpretResponse net.statusResp
        "Error fetching package status"
        "JSON could not be parsed from package info" with m | j <;>
      rw [hir] at h <;> dsimp only at h
    · simp only [Prod.mk.injEq, Except.ok.injEq] at h
      rw [← h.1.2]
    · split at h
      · exact replication_decision_misc _ _ _ _ _ _ h
      · rcases hjr : j.replicationState with _ | R <;>
          rw [hjr] at h <;> dsimp only at h
        · unfold get_baginfo_txt_info at h
          rcases hb : interpretResponse net.baginfoResp
              "Error fetching file info"
              "JSON could not be parsed from file info" with m2 | j2 <;>
            rw [hb] at h <;> dsimp only at h
          · simp only [Prod.mk.injEq, Except.ok.injEq] at h
            rw [← h.1.2]
          · exact replication_decision_misc _ _ _ _ _ _ h
        · exact replication_decision_misc _ _ _ _ _ _ h
  · obtain ⟨extra, heq | heq, hsub⟩ := is_file_local_calls pkg path email net fs
    · rw [heq, hgc]
      intro hmem
      rcases List.mem_append.1 hmem with h | h
      · simp at h
      · have := hsub h
        simp at this
    · rw [heq]
      intro hmem
      have := hsub hmem
      simp at this
  · rcases check_package_fixity_calls pkg net with heq | heq <;> rw [heq]
    · simp
    · rw [hgc]
      simp

/-- Witness for C6 at a concrete package that carries an identifier. -/
theorem no_reregistration_witness :
    Call.regPost ∉ (update_package_status pkgStaged netGreen).2 :=
  (no_reregistration pkgStaged netGreen none false [] rfl).2.2.1

/-- Appending to a nonempty string is nonempty. -/
theorem string_append_ne_empty (s t : String) (h : s ≠ "") : s ++ t ≠ "" := by
  intro hc
  apply h
  have hd := congrArg String.data hc
  simp only [String.data_append] at hd
  have hemp : ("" : String).data = [] := rfl
  have h1 : s.data = [] := (List.append_eq_nil.mp hd).1
  exact String.ext (h1.trans hemp.symm)

/-- Discriminates the structured error dictionary carrying a nonempty
(human-readable) message. -/
def InfoResult.isNonemptyErr : InfoResult → Bool
  | InfoResult.err m => decide (m ≠ "")
  | InfoResult.ok _ => false

/-- An uncompressed package with no recorded request identifier. -/
def pkgNoId : Package := ⟨[], false, "STAGING", "/aips/p2"⟩

/-- Counterexample to C3 as stated: for a package with no recorded request
identifier, a connection failure during the lazy re-registration escapes
`_get_package_info` as a `StorageException` — an exception does propagate
past this operation to its caller. -/
theorem get_package_info_exception_escapes :
    (get_package_info pkgNoId netAllExn).1 =
      Except.error (PyExn.storageException "Error in connection for POST") :=
  rfl

/-- C3 amended: for every package that already carries a request identifier,
`_get_package_info` maps any network exception, non-200 status, or JSON
parse failure of the status request to the structured error result with a
nonempty human-readable message, and never raises. -/
theorem get_package_info_maps_errors (pkg : Package) (net : Net)
    (hid : pkg.hasRequestId = true) :
    (∀ e : PyExn, (get_package_info pkg net).1 ≠ Except.error e) ∧
    (HttpResult.failed net.statusResp = true →
      ∀ pkg1 r calls, get_package_info pkg net =
          (Except.ok (pkg1, r), calls) →
        InfoResult.isNonemptyErr r = true) := by
  have hg := get_package_info_hasId pkg net hid
  constructor
  · intro e hc
    rw [hg] at hc
    simp at hc
  · intro hfail pkg1 r calls h
    rw [hg] at h
    simp only [Prod.mk.injEq, Except.ok.injEq] at h
    rw [← h.1.2]
    rcases hs : net.statusResp with _ | ⟨code, body⟩
    · simp [interpretResponse, InfoResult.isNonemptyErr]
    · rw [hs] at hfail
      unfold HttpResult.failed at hfail
      simp only [Bool.or_eq_true, decide_eq_true_eq,
        Option.isNone_iff_eq_none] at hfail
      unfold interpretResponse
      by_cases hc : code = 200
      · have hb : body = none := by
          rcases hfail with h' | h'
          · exact absurd hc h'
          · exact h'
        subst hb
        simp [hc, InfoResult.isNonemptyErr]
      · simp only [if_neg hc, InfoResult.isNonemptyErr, decide_eq_true_eq]
        exact string_append_ne_empty _ _ (by decide)

/-- Witness for the amended C3: a connection exception maps to the nonempty
error message. -/
theorem get_package_info_maps_errors_witness :
    InfoResult.isNonemptyErr
      (InfoResult.err "Error fetching package status") = true :=
  (get_package_info_maps_errors pkgStaged netAllExn rfl).2 rfl pkgStaged
    (InfoResult.err "Error fetching package status") [Call.statusGet] rfl

/-- Registration succeeds, then the status GET raises. -/
def netRegOkStatusExn : Net :=
  ⟨HttpResult.resp 200 (some { id := some "rid-9" }), HttpResult.exn,
   HttpResult.exn, HttpResult.exn⟩

/-- `pkgNoId` after the lazy registration recorded the identifier. -/
def pkgRegistered : Package :=
  ⟨[("arkivum_identifier", "rid-9")], false, "STAGING", "/aips/p2"⟩

/-- Counterexample to C8 as stated: for a package with no recorded
identifier, the lazy registration inside the fetch records the identifier
and saves the package, and only then does the status GET fail — so the
error-result return coexists with a modified, persisted attribute bag. -/
theorem update_package_status_error_modifies_state :
    update_package_status pkgNoId netRegOkStatusExn =
      (Except.ok ((none, "Error fetching package status"), pkgRegistered),
       [Call.regPost, Call.save, Call.statusGet]) ∧
    pkgRegistered.misc_attributes ≠ pkgNoId.misc_attributes ∧
    Call.save ∈ [Call.regPost, Call.save, Call.statusGet] :=
  ⟨rfl, by decide, by decide⟩

/-- C8 amended: when the fetch inside `update_package_status` yields an
error result, the pair `(None, errorMessage)` is returned and the package's
status is unchanged; for a package that already carried its request
identifier nothing at all is modified or persisted (a package without one
may still have the identifier recorded and saved by the lazy
registration). -/
theorem update_package_status_error_state (pkg : Package) (net : Net)
    (m : String) (pkg' : Package) (calls : List Call)
    (h : update_package_status pkg net =
      (Except.ok ((none, m), pkg'), calls)) :
    pkg'.status = pkg.status ∧
    (pkg.hasRequestId = true → pkg' = pkg ∧ Call.save ∉ calls) := by
  unfold update_package_status at h
  split at h
  next e calls0 heq => exact absurd h (by simp)
  next pkg1 m2 calls0 heq =>
    simp only [Prod.mk.injEq, Except.ok.injEq] at h
    obtain ⟨⟨hres, hpkg⟩, hcalls⟩ := h
    subst hpkg hcalls
    have hpres :=
      get_package_info_preserves pkg net pkg1 (InfoResult.err m2) calls0 heq
    refine ⟨hpres.1, fun hid => ?_⟩
    have hg := get_package_info_hasId pkg net hid
    rw [hg] at heq
    simp only [Prod.mk.injEq, Except.ok.injEq] at heq
    constructor
    · exact heq.1.1.symm
    · rw [← heq.2]
      simp
  next pkg1 j calls0 heq =>
    split at h
    · have := (replication_decision_spec _ _ _ _ _ _ h).2.1
      simp at this
    · split at h
      next R hR =>
        have := (replication_decision_spec _ _ _ _ _ _ h).2.1
        simp at this
      next hR =>
        split at h
        next m2 calls2 heq2 =>
          simp only [Prod.mk.injEq, Except.ok.injEq] at h
          obtain ⟨⟨hres, hpkg⟩, hcalls⟩ := h
          subst hpkg
          have hpres :=
            get_package_info_preserves pkg net pkg1 (InfoResult.ok j)
              calls0 heq
          refine ⟨hpres.1, fun hid => ?_⟩
          have hg := get_package_info_hasId pkg net hid
          rw [hg] at heq
          simp only [Prod.mk.injEq, Except.ok.injEq] at heq
          constructor
          · exact heq.1.1.symm
          · unfold get_baginfo_txt_info at heq2
            simp only [Prod.mk.injEq] at heq2
            rw [← hcalls, ← heq.2, ← heq2.2]
            simp
        next j2 calls2 heq2 =>
          have := (replication_decision_spec _ _ _ _ _ _ h).2.1
          simp at this

/-- Witness for the amended C8: a failing status GET on a package carrying
its identifier leaves everything unchanged. -/
theorem update_package_status_error_state_witness :
    pkgStaged.status = pkgStaged.status ∧
    (pkgStaged.hasRequestId = true →
      pkgStaged = pkgStaged ∧ Call.save ∉ [Call.statusGet]) :=
  update_package_status_error_state pkgStaged netAllExn
    "Error fetching package status" pkgStaged [Call.statusGet] rfl

/-- C4: for an uncompressed package whose primary status payload lacks
`replicationState`, the `bag-info.txt` fallback is attempted exactly once
and its `replicationState`, when present, is the one echoed; for compressed
packages and for primary payloads carrying the field, the fallback is never
attempted. -/
theorem fallback_lookup_policy (pkg : Package) (net : Net) :
    (pkg.is_compressed = true →
      (update_package_status pkg net).2.count Call.baginfoGet = 0) ∧
    (pkg.is_compressed = false →
      ∀ pkg1 j calls, get_package_info pkg net =
          (Except.ok (pkg1, InfoResult.ok j), calls) →
        (j.replicationState = none →
          (update_package_status pkg net).2.count Call.baginfoGet = 1 ∧
          (∀ j2 calls2 r, get_baginfo_txt_info net =
              (InfoResult.ok j2, calls2) →
            j2.replicationState = some r →
            ∀ stp msg pkg' calls', update_package_status pkg net =
                (Except.ok ((stp, msg), pkg'), calls') →
              msg = "Replication status: " ++ r)) ∧
        (j.replicationState.isSome = true →
          (update_package_status pkg net).2.count Call.baginfoGet = 0)) := by
  have hnb := get_package_info_no_baginfo pkg net
  constructor
  · intro hc
    unfold update_package_status
    rcases hgp : get_package_info pkg net with ⟨er, calls0⟩
    have hc0 : calls0.count Call.baginfoGet = 0 := by
      have h0 := List.count_eq_zero.mpr hnb
      rw [hgp] at h0
      exact h0
    rcases er with e | ⟨pkg1, ir⟩
    · dsimp only
      exact hc0
    · rcases ir with m | j <;> dsimp only
      · exact hc0
      · have hpres :=
          get_package_info_preserves pkg net pkg1 (InfoResult.ok j) calls0 hgp
        rw [hpres.2.1, hc]
        simp only [if_true]
        rcases replication_decision_calls pkg1
          ((j.fileInformation.bind FileInfo.replicationState).getD "")
          calls0 with h' | h' <;> rw [h'] <;>
          simp [List.count_append, hc0]
  · intro hc pkg1 j calls hInfo
    have hcount : calls.count Call.baginfoGet = 0 := by
      have h0 := List.count_eq_zero.mpr hnb
      rw [hInfo] at h0
      exact h0
    have hpres :=
      get_package_info_preserves pkg net pkg1 (InfoResult.ok j) calls hInfo
    have hcomp1 : pkg1.is_compressed = false := hpres.2.1.trans hc
    refine ⟨fun hrn => ⟨?_, ?_⟩, fun hrs => ?_⟩
    · unfold update_package_status
      rw [hInfo]
      dsimp only
      simp only [hcomp1, Bool.false_eq_true, if_false]
      rw [hrn]
      dsimp only
      unfold get_baginfo_txt_info
      rcases hb : interpretResponse net.baginfoResp
          "Error fetching file info"
          "JSON could not be parsed from file info" with m2 | j2 <;>
        dsimp only
      · simp [List.count_append, hcount]
      · rcases replication_decision_calls pkg1
          (j2.replicationState.getD "") (calls ++ [Call.baginfoGet])
          with h' | h' <;> rw [h'] <;> simp [List.count_append, hcount]
    · intro j2 calls2 r hbag hj2r stp msg pkg' calls' hupd
      have hbi : interpretResponse net.baginfoResp
          "Error fetching file info"
          "JSON could not be parsed from file info" = InfoResult.ok j2 := by
        unfold get_baginfo_txt_info at hbag
        simp only [Prod.mk.injEq] at hbag
        exact hbag.1
      unfold update_package_status at hupd
      rw [hInfo] at hupd
      dsimp only at hupd
      simp only [hcomp1, Bool.false_eq_true, if_false] at hupd
      rw [hrn] at hupd
      dsimp only at hupd
      unfold get_baginfo_txt_info at hupd
      rw [hbi] at hupd
      dsimp only at hupd
      have hspec := (replication_decision_spec _ _ _ _ _ _ hupd).1
      rw [hj2r] at hspec
      exact hspec
    · obtain ⟨r0, hr0⟩ := Option.isSome_iff_exists.mp hrs
      unfold update_package_status
      rw [hInfo]
      dsimp only
      simp only [hcomp1, Bool.false_eq_true, if_false]
      rw [hr0]
      dsimp only
      rcases replication_decision_calls pkg1 r0 calls with h' | h' <;>
        rw [h'] <;> simp [List.count_append, hcount]

/-- Primary status payload lacks `replicationState`; fallback reports
amber. -/
def netFallbackAmber : Net :=
  ⟨HttpResult.exn, HttpResult.resp 200 (some {}),
   HttpResult.resp 200 (some { replicationState := some "amber" }),
   HttpResult.exn⟩

/-- Witness for C4: exactly one fallback lookup, and its replication state
is the one echoed. -/
theorem fallback_lookup_policy_witness :
    (update_package_status pkgStaged netFallbackAmber).2.count
      Call.baginfoGet = 1 ∧
    "Replication status: amber" = "Replication status: " ++ "amber" := by
  have h := (fallback_lookup_policy pkgStaged netFallbackAmber).2 rfl
    pkgStaged {} [Call.statusGet] rfl
  exact ⟨(h.1 rfl).1,
    (h.1 rfl).2 { replicationState := some "amber" } [Call.baginfoGet]
      "amber" rfl rfl (some "STAGING") "Replication status: amber" pkgStaged
      [Call.statusGet, Call.baginfoGet] rfl⟩

/-- Two failure entries. -/
def failChecksum : Failure := ⟨"bad checksum", "data/f1"⟩

def failMissing : Failure := ⟨"file missing", "data/f2"⟩

/-- Status payload that is exactly the spec's third decision-table row
`{failures: [a, b]}`: two failures and no `status` key. -/
def netTwoFailures : Net :=
  ⟨HttpResult.exn,
   HttpResult.resp 200 (some { failures := some [failChecksum, failMissing] }),
   HttpResult.exn, HttpResult.exn⟩

/-- Counterexample to C2 as stated: on the spec's own `{failures: [a, b]}`
payload — error-free, two failures, no `status` key — the code raises
`KeyError` at `package_info["status"]` instead of returning the row's
`(false, [a, b], "invalid bag", ...)` tuple. -/
theorem check_package_fixity_keyerror :
    (check_package_fixity pkgStaged netTwoFailures).1 =
      Except.error (PyExn.keyError "status") :=
  rfl

/-- C2 amended: for an uncompressed package whose error-free status payload
carries a `status` field (and whose `fixityLastChecked` normalizes), the
result follows the decision table evaluated in order, with the errors
component always the payload's `failures` list (empty when absent). -/
theorem check_package_fixity_table (pkg : Package) (net : Net)
    (hC : pkg.is_compressed = false)
    (pkg1 : Package) (j : Payload) (calls : List Call) (st : String)
    (ts : Option String)
    (hInfo : get_package_info pkg net =
      (Except.ok (pkg1, InfoResult.ok j), calls))
    (hSt : j.status = some st)
    (hTs : normalizeTimestamp j.fixityLastChecked = Except.ok ts) :
    (st = "Completed" ∧ j.replicationState = some "green" →
      check_package_fixity pkg net =
        (Except.ok (some true, j.failures.getD [], "", ts), calls)) ∧
    (¬(st = "Completed" ∧ j.replicationState = some "green") →
      (st = "Scheduled" ∨ j.replicationState = some "amber") →
      check_package_fixity pkg net =
        (Except.ok (none, j.failures.getD [],
          "Arkivum fixity check in progress", ts), calls)) ∧
    (¬(st = "Completed" ∧ j.replicationState = some "green") →
      ¬(st = "Scheduled" ∨ j.replicationState = some "amber") →
      1 < (j.failures.getD []).length →
      check_package_fixity pkg net =
        (Except.ok (some false, j.failures.getD [], "invalid bag", ts),
         calls)) ∧
    (∀ e, ¬(st = "Completed" ∧ j.replicationState = some "green") →
      ¬(st = "Scheduled" ∨ j.replicationState = some "amber") →
      j.failures.getD [] = [e] →
      check_package_fixity pkg net =
        (Except.ok (some false, [e], e.reason, ts), calls)) := by
  have hcomp1 : pkg.is_compressed = false := hC
  unfold check_package_fixity
  simp only [hcomp1, Bool.false_eq_true, if_false]
  rw [hInfo]
  dsimp only
  rw [hSt]
  dsimp only
  refine ⟨?_, ?_, ?_, ?_⟩
  · intro h1
    simp only [if_pos h1]
    rw [hTs]
  · intro h1 h2
    simp only [if_neg h1, if_pos h2]
    rw [hTs]
  · intro h1 h2 h3
    simp only [if_neg h1, if_neg h2, if_pos h3]
    rw [hTs]
  · intro e h1 h2 herrs
    have h3 : ¬(1 < (j.failures.getD []).length) := by
      rw [herrs]
      simp
    simp only [if_neg h1, if_neg h2, if_neg h3]
    rw [herrs]
    dsimp only
    rw [hTs]

/-- Fixity payload for the first decision-table row. -/
def netFixityGreen : Net :=
  ⟨HttpResult.exn,
   HttpResult.resp 200
     (some { replicationState := some "green", status := some "Completed" }),
   HttpResult.exn, HttpResult.exn⟩

/-- Witness for the amended C2 at the first table row. -/
theorem check_package_fixity_table_witness :
    check_package_fixity pkgStaged netFixityGreen =
      (Except.ok (some true, [], "", none), [Call.statusGet]) :=
  (check_package_fixity_table pkgStaged netFixityGreen rfl pkgStaged
    { replicationState := some "green", status := some "Completed" }
    [Call.statusGet] "Completed" none rfl rfl rfl).1 ⟨rfl, rfl⟩

/-! ### Round-trip of the timestamp normalization (C9) -/

theorem digitVal_digitChar (k : Nat) (hk : k < 10) :
    digitVal (digitChar k) = some k := by
  have h : ∀ m : Nat, m < 10 → digitVal (digitChar m) = some m := by decide
  exact h k hk

theorem digitVal_lt (c : Char) (k : Nat) (h : digitVal c = some k) :
    k < 10 := by
  unfold digitVal at h
  split at h
  next hc =>
    injection h with h'
    omega
  next hc => exact Option.noConfusion h

theorem expectChar_cons (c : Char) (rest : List Char) :
    expectChar c (c :: rest) = some rest := by
  unfold expectChar
  simp

theorem parse2_pad2 (n : Nat) (hn : n < 100) (rest : List Char) :
    parse2 (pad2 n ++ rest) = some (n, rest) := by
  have h1 : n / 10 < 10 := by omega
  have h2 : n % 10 < 10 := by omega
  show parse2 (digitChar (n / 10) :: digitChar (n % 10) :: rest) =
    some (n, rest)
  unfold parse2
  dsimp only
  rw [digitVal_digitChar _ h1, digitVal_digitChar _ h2]
  dsimp only [Option.bind]
  rw [Nat.div_add_mod]

theorem parse2_lt (l : List Char) (n : Nat) (rest : List Char)
    (h : parse2 l = some (n, rest)) : n < 100 := by
  unfold parse2 at h
  split at h
  next c1 c2 r =>
    simp only [Option.bind_eq_some] at h
    obtain ⟨a, ha, b, hb, h'⟩ := h
    have haa := digitVal_lt c1 a ha
    have hbb := digitVal_lt c2 b hb
    injection h' with h''
    have hfst := congrArg Prod.fst h''
    dsimp at hfst
    omega
  next => exact Option.noConfusion h

theorem parse4_pad4 (n : Nat) (hn : n < 10000) (rest : List Char) :
    parse4 (pad4 n ++ rest) = some (n, rest) := by
  have h1 : n / 100 < 100 := by omega
  have h2 : n % 100 < 100 := by omega
  unfold parse4
  rw [show pad4 n ++ rest = pad2 (n / 100) ++ (pad2 (n % 100) ++ rest) by
    simp [pad4]]
  rw [parse2_pad2 _ h1]
  dsimp only
  rw [parse2_pad2 _ h2]
  dsimp only
  rw [Nat.div_add_mod]

theorem parse4_lt (l : List Char) (n : Nat) (rest : List Char)
    (h : parse4 l = some (n, rest)) : n < 10000 := by
  unfold parse4 at h
  rcases hp1 : parse2 l with _ | ⟨a, l1⟩ <;> rw [hp1] at h <;> dsimp only at h
  · exact Option.noConfusion h
  · rcases hp2 : parse2 l1 with _ | ⟨b, l2⟩ <;> rw [hp2] at h <;>
      dsimp only at h
    · exact Option.noConfusion h
    · have ha := parse2_lt l a l1 hp1
      have hb := parse2_lt l1 b l2 hp2
      injection h with h'
      have hfst := congrArg Prod.fst h'
      dsimp at hfst
      omega

/-- Printing a datetime with in-range fields and re-parsing consumes the
whole prefix and returns the same fields. -/
theorem parseYmdHms_print (dt : DateTime) (tail : List Char)
    (h1 : dt.year < 10000) (h2 : 1 ≤ dt.month) (h3 : dt.month ≤ 12)
    (h4 : 1 ≤ dt.day) (h5 : dt.day ≤ 31) (h6 : dt.hour ≤ 23)
    (h7 : dt.minute ≤ 59) (h8 : dt.second ≤ 59) :
    parseYmdHms (pad4 dt.year ++ '-' :: (pad2 dt.month ++ '-' ::
      (pad2 dt.day ++ 'T' :: (pad2 dt.hour ++ ':' :: (pad2 dt.minute ++
        ':' :: (pad2 dt.second ++ tail)))))) = some (dt, tail) := by
  unfold parseYmdHms
  rw [parse4_pad4 _ h1]
  dsimp only [Option.bind]
  rw [expectChar_cons]
  dsimp only [Option.bind]
  rw [parse2_pad2 _ (by omega)]
  dsimp only [Option.bind]
  rw [expectChar_cons]
  dsimp only [Option.bind]
  rw [parse2_pad2 _ (by omega)]
  dsimp only [Option.bind]
  rw [expectChar_cons]
  dsimp only [Option.bind]
  rw [parse2_pad2 _ (by omega)]
  dsimp only [Option.bind]
  rw [expectChar_cons]
  dsimp only [Option.bind]
  rw [parse2_pad2 _ (by omega)]
  dsimp only [Option.bind]
  rw [expectChar_cons]
  dsimp only [Option.bind]
  rw [parse2_pad2 _ (by omega)]
  dsimp only [Option.bind]
  rw [if_pos ⟨h2, h3, h4, h5, h6, h7, h8⟩]

/-- A parsed datetime has in-range fields. -/
theorem parseYmdHms_bounds (l : List Char) (dt : DateTime)
    (rest : List Char) (h : parseYmdHms l = some (dt, rest)) :
    dt.year < 10000 ∧ 1 ≤ dt.month ∧ dt.month ≤ 12 ∧ 1 ≤ dt.day ∧
      dt.day ≤ 31 ∧ dt.hour ≤ 23 ∧ dt.minute ≤ 59 ∧ dt.second ≤ 59 := by
  unfold parseYmdHms at h
  simp only [Option.bind_eq_some, Prod.exists] at h
  obtain ⟨y, l1, hy, l2, hc1, mo, l3, hmo, l4, hc2, d, l5, hd, l6, hc3,
    hh, l7, hhh, l8, hc4, mi, l9, hmi, l10, hc5, s, l11, hs, hfin⟩ := h
  split at hfin
  next hcond =>
    injection hfin with hpair
    rw [Prod.mk.injEq] at hpair
    obtain ⟨hdt, hrest⟩ := hpair
    subst hdt
    have hy4 := parse4_lt l y l1 hy
    exact ⟨hy4, hcond.1, hcond.2.1, hcond.2.2.1, hcond.2.2.2.1,
      hcond.2.2.2.2.1, hcond.2.2.2.2.2.1, hcond.2.2.2.2.2.2⟩
  next => exact Option.noConfusion hfin

/-- Inversion of the appliance-format parser. -/
theorem applianceDateParse_inv (s : String) (dt : DateTime)
    (h : applianceDateParse s = some dt) :
    parseYmdHms s.data = some (dt, ['Z']) := by
  unfold applianceDateParse at h
  split at h
  next dt' rest' heq =>
    split at h
    next hz =>
      injection h with h'
      subst h'
      subst hz
      exact heq
    next => exact Option.noConfusion h
  next => exact Option.noConfusion h

/-- The printed ISO form re-parses to the very same datetime. -/
theorem isoParse_isoformat (dt : DateTime) (h1 : dt.year < 10000)
    (h2 : 1 ≤ dt.month) (h3 : dt.month ≤ 12) (h4 : 1 ≤ dt.day)
    (h5 : dt.day ≤ 31) (h6 : dt.hour ≤ 23) (h7 : dt.minute ≤ 59)
    (h8 : dt.second ≤ 59) :
    isoParse (DateTime.isoformat dt) = some dt := by
  unfold isoParse DateTime.isoformat
  dsimp only
  rw [parseYmdHms_print dt ['+', '0', '0', ':', '0', '0']
    h1 h2 h3 h4 h5 h6 h7 h8]
  dsimp only
  rw [if_pos rfl]

/-- C9: a timestamp string in the appliance's date format, run through the
normalization step, produces a valid ISO-8601 string denoting the same
instant; an absent timestamp yields `None`. -/
theorem timestamp_normalization (s : String) (dt : DateTime)
    (h : applianceDateParse s = some dt) :
    isoParse (DateTime.isoformat dt) = some dt ∧
    (isoParse (DateTime.isoformat dt)).map DateTime.instant =
      some (DateTime.instant dt) ∧
    normalizeTimestamp (some s) =
      Except.ok (some (DateTime.isoformat dt)) ∧
    normalizeTimestamp none = Except.ok none := by
  have hp := applianceDateParse_inv s dt h
  obtain ⟨b1, b2, b3, b4, b5, b6, b7, b8⟩ := parseYmdHms_bounds _ _ _ hp
  have hiso := isoParse_isoformat dt b1 b2 b3 b4 b5 b6 b7 b8
  refine ⟨hiso, by rw [hiso]; rfl, ?_, rfl⟩
  have hs : ¬(s = "") := fun he => by
    rw [he] at h
    rw [show applianceDateParse "" = none from rfl] at h
    exact Option.noConfusion h
  unfold normalizeTimestamp
  simp only [if_neg hs]
  rw [h]

/-- The appliance timestamp of the project's test fixture. -/
def dtSample : DateTime := ⟨2015, 11, 24, 0, 13, 14⟩

/-- Witness for C9 at a concrete appliance timestamp. -/
theorem timestamp_normalization_witness :
    isoParse (DateTime.isoformat dtSample) = some dtSample ∧
    (isoParse (DateTime.isoformat dtSample)).map DateTime.instant =
      some (DateTime.instant dtSample) ∧
    normalizeTimestamp (some "2015-11-24T00:13:14Z") =
      Except.ok (some (DateTime.isoformat dtSample)) ∧
    normalizeTimestamp none = Except.ok none :=
  timestamp_normalization "2015-11-24T00:13:14Z" dtSample rfl

end Arkivum
